import Mathlib

/-!
Verification development for the SalesPark API client (api-client.ts).

The embedding below models the decision core of the client:
* `JsValue` — a model of JavaScript runtime values (payloads, error bodies, ids).
* `normalizeSuccess` / `normalizeError` — the response/error normalizers.
* `computeBackoff` — the exponential-backoff policy (real-valued model over ℚ).
* `isRetriable` — the retriability classifier.
* `runLoop` / `run` — the retry loop wrapping one opaque exchange function.
  The exchange function is modelled as `Nat → Except AxiosError AxiosResponse`,
  giving the outcome of each (0-based) invocation; a thrown value is the
  `.error` branch.  `run` returns the normalized result paired with the number
  of exchange invocations performed (the backoff wait only suspends and does
  not influence the result, so it is not threaded through the loop).
* `validateUrl` / `validateId` / `validateSubpath` and the method-surface /
  resource operations, where a synchronous throw is the `.error` branch of
  `Except String`, distinct from the normalized-result channel.
-/

namespace ApiClient

/-- Model of a JavaScript runtime value. -/
inductive JsValue : Type where
  | undefined : JsValue
  | null : JsValue
  | bool : Bool → JsValue
  | num : Int → JsValue
  | str : String → JsValue
  | arr : List JsValue → JsValue
  | obj : List (String × JsValue) → JsValue

/-- JavaScript truthiness of a value. -/
def truthy : JsValue → Bool
  | .undefined => false
  | .null => false
  | .bool b => b
  | .num n => n != 0
  | .str s => s != ""
  | .arr _ => true
  | .obj _ => true

/-- First-match lookup of a key among an object's fields. -/
def jsLookup (fields : List (String × JsValue)) (k : String) : Option JsValue :=
  match fields with
  | [] => none
  | (k', v) :: rest => if k' = k then some v else jsLookup rest k

/-- The JavaScript `in` operator on an object's fields. -/
def hasKey (fields : List (String × JsValue)) (k : String) : Bool :=
  (jsLookup fields k).isSome

/-- JavaScript property assignment: replace an existing key in place, else append. -/
def setKey (fields : List (String × JsValue)) (k : String) (v : JsValue) :
    List (String × JsValue) :=
  if hasKey fields k then
    fields.map (fun p => if p.1 = k then (k, v) else p)
  else fields ++ [(k, v)]

/-- Field access on an object value (`none` on non-objects). -/
def resField (v : JsValue) (k : String) : Option JsValue :=
  match v with
  | .obj fs => jsLookup fs k
  | _ => none

/-- Property read with `undefined` for a missing key or a non-object receiver. -/
def getField (v : JsValue) (k : String) : JsValue :=
  match v with
  | .obj fs => (jsLookup fs k).getD .undefined
  | _ => .undefined

/-- Strict equality with the literal `true`. -/
def isTrueLit : JsValue → Bool
  | .bool true => true
  | _ => false

/-- Strict equality with the literal `false`. -/
def isFalseLit : JsValue → Bool
  | .bool false => true
  | _ => false

/-- Axios success response: only the `data` payload matters to the core. -/
structure AxiosResponse : Type where
  data : JsValue

/-- The `response` part of an Axios error: HTTP status and response body. -/
structure ErrorResponse : Type where
  status : Nat
  data : JsValue

/-- Axios error object.  `message = ""` models both an absent and an empty
message (both are falsy, and the message is only read through `||`). -/
structure AxiosError : Type where
  response : Option ErrorResponse
  message : String
  code : Option String

/-- The duck-typing check of `normalizeSuccess` (api-client.ts line 161-165):
payload is a truthy object with `status` and `data` keys and `status === true`. -/
def isCanonicalTrue (payload : JsValue) : Bool :=
  match payload with
  | .obj fs =>
      hasKey fs "status" && hasKey fs "data" &&
        (match jsLookup fs "status" with
         | some v => isTrueLit v
         | none => false)
  | _ => false

/-- The duck-typing check of `normalizeError` (api-client.ts line 183-187):
body is a truthy object with `status` and `data` keys and `status === false`. -/
def isCanonicalFalse (body : JsValue) : Bool :=
  match body with
  | .obj fs =>
      hasKey fs "status" && hasKey fs "data" &&
        (match jsLookup fs "status" with
         | some v => isFalseLit v
         | none => false)
  | _ => false

/-- Source `normalizeSuccess` (api-client.ts line 158-169): pass an already-canonical
`{status:true,data}` payload through, otherwise wrap the raw payload. -/
def normalizeSuccess (res : AxiosResponse) : JsValue :=
  let payload := res.data
  if isCanonicalTrue payload then payload
  else .obj [("status", .bool true), ("data", payload)]

/-- Reads `err?.response?.data`, `undefined` when there is no response. -/
def responseData (err : AxiosError) : JsValue :=
  match err.response with
  | some r => r.data
  | none => .undefined

/-- The message chain of `normalizeError` (api-client.ts line 192):
`responseData?.message || responseData?.error || err?.message || "Request failed"`. -/
def chooseMessage (err : AxiosError) : JsValue :=
  let rd := responseData err
  if truthy (getField rd "message") then getField rd "message"
  else if truthy (getField rd "error") then getField rd "error"
  else if err.message ≠ "" then .str err.message
  else .str "Request failed"

/-- Fields contributed by the object spread `{...responseData}`; `none` when
`responseData` is not a (truthy) object.  An array spreads to indexed keys. -/
def spreadFields : JsValue → Option (List (String × JsValue))
  | .obj fs => some fs
  | .arr xs => some (xs.enum.map (fun p => (toString p.1, p.2)))
  | _ => none

/-- Source `normalizeError` (api-client.ts line 179-200): pass an already-canonical
`{status:false,data}` body through; otherwise build the compact error payload
with the chosen message, merged body fields, and `statusCode` / `code` set
when truthy. -/
def normalizeError (err : AxiosError) : JsValue :=
  let rd := responseData err
  if isCanonicalFalse rd then rd
  else
    let msg := chooseMessage err
    let d0 : List (String × JsValue) :=
      match spreadFields rd with
      | some fs => setKey fs "message" msg
      | none => [("message", msg)]
    let d1 : List (String × JsValue) :=
      match err.response with
      | some r => if r.status ≠ 0 then setKey d0 "statusCode" (.num (r.status : Int)) else d0
      | none => d0
    let d2 : List (String × JsValue) :=
      match err.code with
      | some c => if c ≠ "" then setKey d1 "code" (.str c) else d1
      | none => d1
    .obj [("status", .bool false), ("data", .obj d2)]

/-- Retry options (api-client.ts line 16-21).  Delays are modelled over ℚ
(exact real arithmetic standing in for JavaScript numbers). -/
structure RetryOptions : Type where
  retries : Int
  baseDelayMs : ℚ
  maxDelayMs : ℚ
  jitter : Bool

/-- Source `DEFAULT_RETRY` (api-client.ts line 23-28). -/
def DEFAULT_RETRY : RetryOptions :=
  { retries := 1, baseDelayMs := 300, maxDelayMs := 2000, jitter := true }

/-- A caller-supplied `Partial<RetryOptions>`. -/
structure RetryOverrides : Type where
  retries : Option Int
  baseDelayMs : Option ℚ
  maxDelayMs : Option ℚ
  jitter : Option Bool

/-- No override at all (the `{}` / absent `options.retry`). -/
def noOverrides : RetryOverrides :=
  { retries := none, baseDelayMs := none, maxDelayMs := none, jitter := none }

/-- The spread `{ ...DEFAULT_RETRY, ...(options.retry ?? {}) }` (line 261):
field-by-field override of the defaults. -/
def mergeRetry (p : RetryOverrides) : RetryOptions :=
  { retries := p.retries.getD DEFAULT_RETRY.retries,
    baseDelayMs := p.baseDelayMs.getD DEFAULT_RETRY.baseDelayMs,
    maxDelayMs := p.maxDelayMs.getD DEFAULT_RETRY.maxDelayMs,
    jitter := p.jitter.getD DEFAULT_RETRY.jitter }

/-- Source `computeBackoff` (api-client.ts line 227-234).  `rand` is the value drawn
by `Math.random()` (only consulted when `jitter` is set); the attempt counter
is 1-based, as in the caller. -/
def computeBackoff (attempt : Nat) (opts : RetryOptions) (rand : ℚ) : ℚ :=
  let e := min opts.maxDelayMs (opts.baseDelayMs * 2 ^ (attempt - 1))
  if !opts.jitter then e
  else
    let rnd := rand * e * (3 / 10)
    min opts.maxDelayMs ((⌊e - rnd⌋ : ℤ) : ℚ)

/-- Source `isRetriable` (api-client.ts line 242-246): a falsy status (no response,
or status 0) is retriable; otherwise only 5xx is. -/
def isRetriable (err : AxiosError) : Bool :=
  match err.response with
  | none => true
  | some r => if r.status = 0 then true else decide (500 ≤ r.status ∧ r.status < 600)

/-- Whether the failure carries a (truthy) HTTP status, i.e. the negation of the
`!status` guard in `isRetriable`. -/
def hasHttpStatus (err : AxiosError) : Bool :=
  match err.response with
  | some r => decide (r.status ≠ 0)
  | none => false

/-- One opaque exchange function: the outcome of the n-th (0-based) invocation. -/
abbrev ExchangeFn : Type := Nat → Except AxiosError AxiosResponse

/-- Computes `maxAttempts = 1 + Math.max(0, retry.retries)` (line 262). -/
def maxAttemptsOf (r : RetryOptions) : Nat :=
  1 + (max 0 r.retries).toNat

/-- The defensive `{ status:false, data:{ message:"Unexpected client error" } }`
fallback after the loop (line 280). -/
def unexpectedClientError : JsValue :=
  .obj [("status", .bool false), ("data", .obj [("message", .str "Unexpected client error")])]

/-- The `while (attempt < maxAttempts)` loop of `run` (api-client.ts line
264-280), returning the normalized result together with the total number of
exchange invocations performed.  The backoff wait between attempts only
suspends execution and cannot change the result, so it is not modelled. -/
def runLoop (fn : ExchangeFn) (maxAttempts attempt : Nat) : JsValue × Nat :=
  if _h : attempt < maxAttempts then
    match fn attempt with
    | .ok res => (normalizeSuccess res, attempt + 1)
    | .error err =>
      if maxAttempts ≤ attempt + 1 || !isRetriable err then
        (normalizeError err, attempt + 1)
      else
        runLoop fn maxAttempts (attempt + 1)
  else (unexpectedClientError, attempt)
termination_by maxAttempts - attempt

/-- Source `run` (api-client.ts line 259-281): merge the retry overrides onto the
defaults and run the attempt loop from `attempt = 0`. -/
def run (fn : ExchangeFn) (opts : RetryOverrides) : JsValue × Nat :=
  runLoop fn (maxAttemptsOf (mergeRetry opts)) 0

/-- JavaScript `String.prototype.trim`: strip leading and trailing
whitespace (structural model over the character list). -/
def jsTrim (s : String) : String :=
  ⟨((s.data.dropWhile Char.isWhitespace).reverse.dropWhile Char.isWhitespace).reverse⟩

/-- Source `validateUrl` (api-client.ts line 288-292): throws unless the url is a
truthy string whose trim is non-empty. -/
def validateUrl (url : JsValue) : Except String Unit :=
  if !truthy url then .error "URL must be a non-empty string"
  else
    match url with
    | .str s =>
        if jsTrim s = "" then .error "URL must be a non-empty string" else .ok ()
    | _ => .error "URL must be a non-empty string"

/-- Source `validateId` (api-client.ts line 513-517): rejects exactly `null`,
`undefined` and the empty string (strict equality). -/
def validateId (id : JsValue) : Except String Unit :=
  match id with
  | .null => .error "Resource ID must be provided and non-empty"
  | .undefined => .error "Resource ID must be provided and non-empty"
  | .str s =>
      if s = "" then .error "Resource ID must be provided and non-empty" else .ok ()
  | _ => .ok ()

/-- Source `validateSubpath` (api-client.ts line 519-523). -/
def validateSubpath (subpath : JsValue) : Except String Unit :=
  if !truthy subpath then .error "Subpath must be a non-empty string"
  else
    match subpath with
    | .str s =>
        if jsTrim s = "" then .error "Subpath must be a non-empty string" else .ok ()
    | _ => .error "Subpath must be a non-empty string"

mutual

/-- JavaScript template-literal stringification of a value (used by the
resource helper's `${baseUrl}/${id}` url building). -/
def jsToString : JsValue → String
  | .undefined => "undefined"
  | .null => "null"
  | .bool b => cond b "true" "false"
  | .num n => toString n
  | .str s => s
  | .obj _ => "[object Object]"
  | .arr xs => String.intercalate "," (jsElemStrings xs)

/-- Models `Array.prototype.join`: `null` and `undefined` elements become empty strings. -/
def jsElemStrings : List JsValue → List String
  | [] => []
  | .null :: rest => "" :: jsElemStrings rest
  | .undefined :: rest => "" :: jsElemStrings rest
  | v :: rest => jsToString v :: jsElemStrings rest

end

/-- The result channel of a method-surface call: `.error` models the
synchronous throw of a validation helper (outside the normalized-result
channel), `.ok` carries the normalized result and the exchange count. -/
abbrev SurfaceResult : Type := Except String (ApiClient.JsValue × Nat)

/-- Source `getOne` (api-client.ts line 354-358): validate the url, then delegate to
`run`.  The axios call closure is the opaque exchange function `fn`. -/
def getOne (url : JsValue) (fn : ExchangeFn) (opts : RetryOverrides) : SurfaceResult :=
  match validateUrl url with
  | .error e => .error e
  | .ok _ => .ok (run fn opts)

/-- Source `getMany` (api-client.ts line 348-352). -/
def getMany (url : JsValue) (fn : ExchangeFn) (opts : RetryOverrides) : SurfaceResult :=
  match validateUrl url with
  | .error e => .error e
  | .ok _ => .ok (run fn opts)

/-- Source `post` (api-client.ts line 360-364); the payload is captured by the
exchange closure and so does not appear on the success path. -/
def post (url : JsValue) (_payload : JsValue) (fn : ExchangeFn) (opts : RetryOverrides) :
    SurfaceResult :=
  match validateUrl url with
  | .error e => .error e
  | .ok _ => .ok (run fn opts)

/-- Source `put` (api-client.ts line 366-370). -/
def put (url : JsValue) (_payload : JsValue) (fn : ExchangeFn) (opts : RetryOverrides) :
    SurfaceResult :=
  match validateUrl url with
  | .error e => .error e
  | .ok _ => .ok (run fn opts)

/-- Source `patch` (api-client.ts line 372-376). -/
def patch (url : JsValue) (_payload : JsValue) (fn : ExchangeFn) (opts : RetryOverrides) :
    SurfaceResult :=
  match validateUrl url with
  | .error e => .error e
  | .ok _ => .ok (run fn opts)

/-- Source `remove` (api-client.ts line 378-382). -/
def remove (url : JsValue) (fn : ExchangeFn) (opts : RetryOverrides) : SurfaceResult :=
  match validateUrl url with
  | .error e => .error e
  | .ok _ => .ok (run fn opts)

/-- Source `upload` (api-client.ts line 385-425): validate the url first; the
`FormData`/`Blob`/`File` host-object branches are outside the value model, so
the data check keeps only the plain-object branch and the final throw for any
other shape. -/
def upload (url : JsValue) (data : JsValue) (fn : ExchangeFn) (opts : RetryOverrides) :
    SurfaceResult :=
  match validateUrl url with
  | .error e => .error e
  | .ok _ =>
    match data with
    | .obj _ => .ok (run fn opts)
    | _ => .error "Invalid upload data type. Expected FormData, Blob, File, or object."

/-- Source `download` (api-client.ts line 428-478): validate the url, then run; the
filename extraction on the success path is response-header plumbing outside
this model. -/
def download (url : JsValue) (fn : ExchangeFn) (opts : RetryOverrides) : SurfaceResult :=
  match validateUrl url with
  | .error e => .error e
  | .ok _ => .ok (run fn opts)

/-- Source `resource(...).get` (api-client.ts line 529-532): validate the id, then
`getOne` on the templated url. -/
def resourceGet (baseUrl : String) (id : JsValue) (fn : ExchangeFn) (opts : RetryOverrides) :
    SurfaceResult :=
  match validateId id with
  | .error e => .error e
  | .ok _ => getOne (.str (baseUrl ++ "/" ++ jsToString id)) fn opts

/-- Source `resource(...).update` (api-client.ts line 536-539). -/
def resourceUpdate (baseUrl : String) (id : JsValue) (payload : JsValue) (fn : ExchangeFn)
    (opts : RetryOverrides) : SurfaceResult :=
  match validateId id with
  | .error e => .error e
  | .ok _ => put (.str (baseUrl ++ "/" ++ jsToString id)) payload fn opts

/-- Source `resource(...).patch` (api-client.ts line 541-544). -/
def resourcePatch (baseUrl : String) (id : JsValue) (payload : JsValue) (fn : ExchangeFn)
    (opts : RetryOverrides) : SurfaceResult :=
  match validateId id with
  | .error e => .error e
  | .ok _ => patch (.str (baseUrl ++ "/" ++ jsToString id)) payload fn opts

/-- Source `resource(...).remove` (api-client.ts line 546-549). -/
def resourceRemove (baseUrl : String) (id : JsValue) (fn : ExchangeFn)
    (opts : RetryOverrides) : SurfaceResult :=
  match validateId id with
  | .error e => .error e
  | .ok _ => remove (.str (baseUrl ++ "/" ++ jsToString id)) fn opts

/-- Source `resource(...).action` (api-client.ts line 551-557): validate the subpath,
then `post` when a payload is supplied (`payload !== undefined`), else `getOne`. -/
def resourceAction (baseUrl : String) (subpath : JsValue) (payload : Option JsValue)
    (fn : ExchangeFn) (opts : RetryOverrides) : SurfaceResult :=
  match validateSubpath subpath with
  | .error e => .error e
  | .ok _ =>
    let url : JsValue := .str (baseUrl ++ "/" ++ jsToString subpath)
    match payload with
    | some p => post url p fn opts
    | none => getOne url fn opts

/-! ## Concrete instances used by witnesses and counterexamples -/

def okExchange : ExchangeFn := fun _ => .ok ⟨.str "payload"⟩

def networkError : AxiosError := ⟨none, "Network Error", none⟩

def networkFailExchange : ExchangeFn := fun _ => .error networkError

def twoRetries : RetryOverrides := ⟨some 2, none, none, none⟩

def notFoundError : AxiosError :=
  ⟨some ⟨404, .obj [("message", .str "Not found")]⟩, "Request failed with status code 404", none⟩

def notFoundExchange : ExchangeFn := fun _ => .error notFoundError

/-- The failure produced when the caller's cancellation signal has fired:
no response (hence no HTTP status) and the transport abort code. -/
def abortError : AxiosError := ⟨none, "canceled", some "ERR_CANCELED"⟩

def abortExchange : ExchangeFn := fun _ => .error abortError

def oneRetry : RetryOverrides := ⟨some 1, none, none, none⟩

/-- The compact error payload before `statusCode`/`code` attachment: the body
fields with the chosen message merged in (the else-branch `d` of
`normalizeError` just after line 194). -/
def errD0 (err : AxiosError) : List (String × JsValue) :=
  match spreadFields (responseData err) with
  | some fs => setKey fs "message" (chooseMessage err)
  | none => [("message", chooseMessage err)]

/-- The payload after the `statusCode` attachment (line 196). -/
def errD1 (err : AxiosError) : List (String × JsValue) :=
  match err.response with
  | some r =>
      if r.status ≠ 0 then setKey (errD0 err) "statusCode" (.num (r.status : Int))
      else errD0 err
  | none => errD0 err

/-- The payload after the `code` attachment (line 197): the final `data` of a
built (non-pass-through) `normalizeError` result. -/
def builtErrorData (err : AxiosError) : List (String × JsValue) :=
  match err.code with
  | some c => if c ≠ "" then setKey (errD1 err) "code" (.str c) else errD1 err
  | none => errD1 err

def boomError : AxiosError :=
  ⟨some ⟨503, .obj [("error", .str "Boom"), ("extra", .num 7)]⟩,
   "Request failed with status code 503", some "ECONNRESET"⟩

/-- A pure transport timeout: no response (hence no body and no HTTP status),
only the transport message and failure code. -/
def timeoutError : AxiosError := ⟨none, "timeout of 8000ms exceeded", some "ECONNABORTED"⟩

/-! ## Helper lemmas about the normalizers -/

theorem isCanonicalTrue_status {fs : List (String × JsValue)}
    (h : isCanonicalTrue (.obj fs) = true) :
    jsLookup fs "status" = some (.bool true) ∧ hasKey fs "data" = true := by
  simp only [isCanonicalTrue, Bool.and_eq_true] at h
  obtain ⟨⟨hs, hd⟩, hm⟩ := h
  refine ⟨?_, hd⟩
  cases hv : jsLookup fs "status" with
  | none => rw [hv] at hm; simp at hm
  | some v =>
      rw [hv] at hm
      cases v with
      | bool b => cases b with
        | true => rfl
        | false => simp [isTrueLit] at hm
      | undefined => simp [isTrueLit] at hm
      | null => simp [isTrueLit] at hm
      | num n => simp [isTrueLit] at hm
      | str s => simp [isTrueLit] at hm
      | arr xs => simp [isTrueLit] at hm
      | obj gs => simp [isTrueLit] at hm

theorem isCanonicalFalse_status {fs : List (String × JsValue)}
    (h : isCanonicalFalse (.obj fs) = true) :
    jsLookup fs "status" = some (.bool false) ∧ hasKey fs "data" = true := by
  simp only [isCanonicalFalse, Bool.and_eq_true] at h
  obtain ⟨⟨hs, hd⟩, hm⟩ := h
  refine ⟨?_, hd⟩
  cases hv : jsLookup fs "status" with
  | none => rw [hv] at hm; simp at hm
  | some v =>
      rw [hv] at hm
      cases v with
      | bool b => cases b with
        | true => simp [isFalseLit] at hm
        | false => rfl
      | undefined => simp [isFalseLit] at hm
      | null => simp [isFalseLit] at hm
      | num n => simp [isFalseLit] at hm
      | str s => simp [isFalseLit] at hm
      | arr xs => simp [isFalseLit] at hm
      | obj gs => simp [isFalseLit] at hm

theorem normalizeSuccess_fields (res : AxiosResponse) :
    resField (normalizeSuccess res) "status" = some (.bool true) ∧
    (resField (normalizeSuccess res) "data").isSome = true := by
  unfold normalizeSuccess
  by_cases h : isCanonicalTrue res.data
  · simp only [h, if_true]
    cases hd : res.data with
    | obj fs =>
        rw [hd] at h
        obtain ⟨hs, hk⟩ := isCanonicalTrue_status h
        simp [resField, hs, hasKey, Option.isSome] at hk ⊢
        cases hv : jsLookup fs "data" with
        | none => rw [hv] at hk; simp at hk
        | some v => simp
    | undefined => rw [hd] at h; simp [isCanonicalTrue] at h
    | null => rw [hd] at h; simp [isCanonicalTrue] at h
    | bool b => rw [hd] at h; simp [isCanonicalTrue] at h
    | num n => rw [hd] at h; simp [isCanonicalTrue] at h
    | str s => rw [hd] at h; simp [isCanonicalTrue] at h
    | arr xs => rw [hd] at h; simp [isCanonicalTrue] at h
  · simp [h, resField, jsLookup]

theorem normalizeError_fields (err : AxiosError) :
    resField (normalizeError err) "status" = some (.bool false) ∧
    (resField (normalizeError err) "data").isSome = true := by
  unfold normalizeError
  by_cases h : isCanonicalFalse (responseData err)
  · simp only [h, if_true]
    cases hd : responseData err with
    | obj fs =>
        rw [hd] at h
        obtain ⟨hs, hk⟩ := isCanonicalFalse_status h
        simp [resField, hs, hasKey, Option.isSome] at hk ⊢
        cases hv : jsLookup fs "data" with
        | none => rw [hv] at hk; simp at hk
        | some v => simp
    | undefined => rw [hd] at h; simp [isCanonicalFalse] at h
    | null => rw [hd] at h; simp [isCanonicalFalse] at h
    | bool b => rw [hd] at h; simp [isCanonicalFalse] at h
    | num n => rw [hd] at h; simp [isCanonicalFalse] at h
    | str s => rw [hd] at h; simp [isCanonicalFalse] at h
    | arr xs => rw [hd] at h; simp [isCanonicalFalse] at h
  · simp [h, resField, jsLookup]

/-! ## Lemmas about the retry loop -/

theorem runLoop_result_fields (fn : ExchangeFn) (m : Nat) :
    ∀ (k a : Nat), m - a ≤ k →
      ((resField (runLoop fn m a).1 "status" = some (.bool true) ∨
        resField (runLoop fn m a).1 "status" = some (.bool false)) ∧
       (resField (runLoop fn m a).1 "data").isSome = true) := by
  intro k
  induction k with
  | zero =>
      intro a hk
      have hm : ¬ a < m := by omega
      rw [runLoop.eq_def]
      simp [hm, unexpectedClientError, resField, jsLookup]
  | succ k ih =>
      intro a hk
      rw [runLoop.eq_def]
      by_cases hm : a < m
      · simp only [hm, dif_pos]
        cases hfn : fn a with
        | ok res =>
            simpa using ⟨Or.inl (normalizeSuccess_fields res).1, (normalizeSuccess_fields res).2⟩
        | error err =>
            by_cases hterm : (m ≤ a + 1 || !isRetriable err) = true
            · simpa [hterm] using
                ⟨Or.inr (normalizeError_fields err).1, (normalizeError_fields err).2⟩
            · simp only [hterm, if_false, Bool.false_eq_true]
              exact ih (a + 1) (by omega)
      · simp [hm, unexpectedClientError, resField, jsLookup]

/-- C1: For every exchange function and every retry policy, `run` terminates
and returns a normalized Result — an object whose `status` field is the
boolean `true` or `false` and which carries a `data` field — and never
re-raises a failure, even when the exchange fails on every attempt (an
always-`.error` exchange function is included in the quantification). -/
theorem run_always_returns_result (fn : ExchangeFn) (opts : RetryOverrides) :
    (resField (run fn opts).1 "status" = some (.bool true) ∨
     resField (run fn opts).1 "status" = some (.bool false)) ∧
    (resField (run fn opts).1 "data").isSome = true :=
  runLoop_result_fields fn (maxAttemptsOf (mergeRetry opts)) (maxAttemptsOf (mergeRetry opts)) 0
    (by omega)

/-- C10: the normalizers' output discriminant always matches the direction of
the transport outcome: `normalizeSuccess` yields `status = true` for every
response — in particular a 2xx body already shaped `{status:false,data:E}` is
wrapped as the `data` of a Success, not passed through as a Failure — and
`normalizeError` yields `status = false` for every error. -/
theorem normalizer_discriminant_matches (res : AxiosResponse) (err : AxiosError) (E : JsValue) :
    resField (normalizeSuccess res) "status" = some (.bool true) ∧
    resField (normalizeError err) "status" = some (.bool false) ∧
    normalizeSuccess ⟨.obj [("status", .bool false), ("data", E)]⟩ =
      .obj [("status", .bool true),
            ("data", .obj [("status", .bool false), ("data", E)])] := by
  refine ⟨(normalizeSuccess_fields res).1, (normalizeError_fields err).1, ?_⟩
  simp [normalizeSuccess, isCanonicalTrue, hasKey, jsLookup, isTrueLit]

/-- C7: normalization is idempotent on canonical payloads: a success payload
already shaped `{status:true,data:X}` and an error body already shaped
`{status:false,data:E}` are both returned unchanged. -/
theorem normalize_idempotent_on_canonical (X E : JsValue) (st : Nat) (msg : String)
    (code : Option String) :
    normalizeSuccess ⟨.obj [("status", .bool true), ("data", X)]⟩ =
      .obj [("status", .bool true), ("data", X)] ∧
    normalizeError ⟨some ⟨st, .obj [("status", .bool false), ("data", E)]⟩, msg, code⟩ =
      .obj [("status", .bool false), ("data", E)] := by
  constructor
  · simp [normalizeSuccess, isCanonicalTrue, hasKey, jsLookup, isTrueLit]
  · simp [normalizeError, responseData, isCanonicalFalse, hasKey, jsLookup, isFalseLit]

theorem maxAttemptsOf_pos (r : RetryOptions) : 0 < maxAttemptsOf r := by
  unfold maxAttemptsOf
  omega

/-- C2: when the first invocation of the exchange succeeds, `run` performs
exactly one exchange attempt — for every configured retry policy — and returns
the normalized success: the transport payload itself when it is already
canonically shaped `{status:true,data}`, else `{status:true,data:payload}`. -/
theorem run_first_success (fn : ExchangeFn) (opts : RetryOverrides) (res : AxiosResponse)
    (h : fn 0 = .ok res) :
    run fn opts = (normalizeSuccess res, 1) ∧
    (if isCanonicalTrue res.data then normalizeSuccess res = res.data
     else normalizeSuccess res =
       .obj [("status", .bool true), ("data", res.data)]) := by
  constructor
  · unfold run
    rw [runLoop.eq_def]
    simp [maxAttemptsOf_pos (mergeRetry opts), h]
  · unfold normalizeSuccess
    by_cases hc : isCanonicalTrue res.data <;> simp [hc]

theorem run_first_success_witness :
    run okExchange noOverrides = (normalizeSuccess ⟨.str "payload"⟩, 1) ∧
    (if isCanonicalTrue (JsValue.str "payload") then
       normalizeSuccess ⟨.str "payload"⟩ = .str "payload"
     else normalizeSuccess ⟨.str "payload"⟩ =
       .obj [("status", .bool true), ("data", .str "payload")]) :=
  run_first_success okExchange noOverrides ⟨.str "payload"⟩ rfl

/-- When every invocation of the exchange fails with a retriable error, the
loop runs to `maxAttempts` invocations and ends in a normalized failure. -/
theorem runLoop_all_retriable_failures (fn : ExchangeFn)
    (hfn : ∀ n, ∃ e, fn n = .error e ∧ isRetriable e = true) (m : Nat) :
    ∀ (k a : Nat), m - a ≤ k → a < m →
      (runLoop fn m a).2 = m ∧
      resField (runLoop fn m a).1 "status" = some (.bool false) := by
  intro k
  induction k with
  | zero => intro a hk ha; omega
  | succ k ih =>
      intro a hk ha
      obtain ⟨e, hfa, hre⟩ := hfn a
      rw [runLoop.eq_def]
      simp only [ha, dif_pos, hfa]
      by_cases hterm : m ≤ a + 1
      · have hcond : (m ≤ a + 1 || !isRetriable e) = true := by simp [hterm]
        simp only [hcond, if_true]
        exact ⟨by omega, (normalizeError_fields e).1⟩
      · have hcond : (m ≤ a + 1 || !isRetriable e) = false := by simp [hterm, hre]
        simp only [hcond, Bool.false_eq_true, if_false]
        exact ih (a + 1) (by omega) (by omega)

theorem no_status_is_retriable (e : AxiosError) (he : hasHttpStatus e = false) :
    isRetriable e = true := by
  unfold hasHttpStatus at he
  unfold isRetriable
  cases hre : e.response with
  | none => rfl
  | some r =>
      rw [hre] at he
      simp only [decide_eq_false_iff_not, not_not] at he
      simp [he]

/-- C3: a failure that carries no (truthy) HTTP status is classified as
retriable, and an exchange that fails with such errors on every invocation is
invoked exactly `1 + retries` times — never more — before `run` returns a
normalized failure. -/
theorem no_status_failures_exhaust_retries
    (err0 : AxiosError) (h0 : hasHttpStatus err0 = false)
    (fn : ExchangeFn) (hfn : ∀ n, ∃ e, fn n = .error e ∧ hasHttpStatus e = false)
    (opts : RetryOverrides) (retries : Nat)
    (hr : (mergeRetry opts).retries = (retries : Int)) :
    isRetriable err0 = true ∧
    (run fn opts).2 = 1 + retries ∧
    resField (run fn opts).1 "status" = some (.bool false) := by
  have hM : maxAttemptsOf (mergeRetry opts) = 1 + retries := by
    unfold maxAttemptsOf
    rw [hr]
    omega
  have hall : ∀ n, ∃ e, fn n = .error e ∧ isRetriable e = true := by
    intro n
    obtain ⟨e, h1, h2⟩ := hfn n
    exact ⟨e, h1, no_status_is_retriable e h2⟩
  have hmain := runLoop_all_retriable_failures fn hall (maxAttemptsOf (mergeRetry opts))
    (maxAttemptsOf (mergeRetry opts)) 0 (by omega) (maxAttemptsOf_pos _)
  exact ⟨no_status_is_retriable err0 h0, by unfold run; rw [hmain.1, hM], by unfold run; exact hmain.2⟩

theorem no_status_failures_exhaust_retries_witness :
    isRetriable networkError = true ∧
    (run networkFailExchange twoRetries).2 = 1 + 2 ∧
    resField (run networkFailExchange twoRetries).1 "status" = some (.bool false) :=
  no_status_failures_exhaust_retries networkError rfl networkFailExchange
    (fun _ => ⟨networkError, rfl, rfl⟩) twoRetries 2 rfl

/-- C4: a first-attempt failure with an HTTP status in [400,500) is not
retriable, so `run` performs exactly one exchange attempt and returns the
normalized failure, for every configured `retries` value; in general
`isRetriable` is `false` for every failure carrying a truthy status outside
[500,600). -/
theorem http_4xx_single_attempt (fn : ExchangeFn) (e : AxiosError) (r : ErrorResponse)
    (opts : RetryOverrides)
    (hresp : e.response = some r) (h4 : 400 ≤ r.status) (h5 : r.status < 500)
    (hfn : fn 0 = .error e) :
    isRetriable e = false ∧
    run fn opts = (normalizeError e, 1) ∧
    (∀ (e' : AxiosError) (r' : ErrorResponse), e'.response = some r' → r'.status ≠ 0 →
       (r'.status < 500 ∨ 600 ≤ r'.status) → isRetriable e' = false) := by
  have hgen : ∀ (e' : AxiosError) (r' : ErrorResponse), e'.response = some r' →
      r'.status ≠ 0 → (r'.status < 500 ∨ 600 ≤ r'.status) → isRetriable e' = false := by
    intro e' r' hresp' hnz hout
    unfold isRetriable
    rw [hresp']
    simp only [hnz, if_false]
    simp only [decide_eq_false_iff_not]
    omega
  have hno : isRetriable e = false := hgen e r hresp (by omega) (by omega)
  refine ⟨hno, ?_, hgen⟩
  unfold run
  rw [runLoop.eq_def]
  simp [maxAttemptsOf_pos (mergeRetry opts), hfn, hno]

theorem http_4xx_single_attempt_witness :
    isRetriable notFoundError = false ∧
    run notFoundExchange twoRetries = (normalizeError notFoundError, 1) ∧
    (∀ (e' : AxiosError) (r' : ErrorResponse), e'.response = some r' → r'.status ≠ 0 →
       (r'.status < 500 ∨ 600 ≤ r'.status) → isRetriable e' = false) :=
  http_4xx_single_attempt notFoundExchange notFoundError ⟨404, .obj [("message", .str "Not found")]⟩
    twoRetries rfl (by decide) (by decide) rfl

/-- C5 counterexample: an abort failure (no HTTP status, code `ERR_CANCELED`)
is classified as retriable by `isRetriable` — not non-retriable as the claim
states — and with `retries = 1` the loop performs 2 exchange attempts, not
exactly 1. -/
theorem abort_classified_retriable_counterexample :
    isRetriable abortError = true ∧
    (run abortExchange oneRetry).2 = 2 ∧
    ¬ (run abortExchange oneRetry).2 = 1 := by
  have hM : maxAttemptsOf (mergeRetry oneRetry) = 2 := by decide
  have hmain := runLoop_all_retriable_failures abortExchange
    (fun _ => ⟨abortError, rfl, rfl⟩) (maxAttemptsOf (mergeRetry oneRetry))
    (maxAttemptsOf (mergeRetry oneRetry)) 0 (by omega) (maxAttemptsOf_pos _)
  have h2 : (run abortExchange oneRetry).2 = 2 := by
    unfold run
    rw [hmain.1, hM]
  exact ⟨rfl, h2, by omega⟩

/-- C5 amended: the abort failure carries no HTTP status, so `isRetriable`
classifies it as retriable; when the cancellation signal has fired and every
attempt therefore fails with the abort error, the retry loop does not stop
early: `run` performs the full `1 + retries` exchange attempts before
returning a normalized failure. -/
theorem abort_failure_is_retried
    (e : AxiosError) (hresp : e.response = none) (hcode : e.code = some "ERR_CANCELED")
    (fn : ExchangeFn) (hfn : ∀ n, fn n = .error e)
    (opts : RetryOverrides) (retries : Nat)
    (hr : (mergeRetry opts).retries = (retries : Int)) :
    isRetriable e = true ∧
    (run fn opts).2 = 1 + retries ∧
    resField (run fn opts).1 "status" = some (.bool false) := by
  have hno : hasHttpStatus e = false := by
    unfold hasHttpStatus
    rw [hresp]
  exact no_status_failures_exhaust_retries e hno fn (fun n => ⟨e, hfn n, hno⟩) opts retries hr

theorem abort_failure_is_retried_witness :
    isRetriable abortError = true ∧
    (run abortExchange twoRetries).2 = 1 + 2 ∧
    resField (run abortExchange twoRetries).1 "status" = some (.bool false) :=
  abort_failure_is_retried abortError rfl rfl abortExchange (fun _ => rfl) twoRetries 2 rfl

/-- C6: with `exp = min(maxDelayMs, baseDelayMs * 2^(attempt-1))`,
`computeBackoff` returns exactly `exp` when jitter is off — in particular the
table `min(2000, 300*2^(attempt-1))` for the 300/2000 policy at attempts 1..5 —
and with jitter on it returns `⌊exp - rand*exp*0.3⌋` for every draw
`rand ∈ [0,1)`, a value at least `⌊0.7*exp⌋`, at most `exp`, and never above
`maxDelayMs`. -/
theorem computeBackoff_spec :
    (∀ (attempt : Nat) (opts : RetryOptions) (rand : ℚ), opts.jitter = false →
       computeBackoff attempt opts rand =
         min opts.maxDelayMs (opts.baseDelayMs * 2 ^ (attempt - 1))) ∧
    (∀ rand : ℚ,
       computeBackoff 1 ⟨1, 300, 2000, false⟩ rand = 300 ∧
       computeBackoff 2 ⟨1, 300, 2000, false⟩ rand = 600 ∧
       computeBackoff 3 ⟨1, 300, 2000, false⟩ rand = 1200 ∧
       computeBackoff 4 ⟨1, 300, 2000, false⟩ rand = 2000 ∧
       computeBackoff 5 ⟨1, 300, 2000, false⟩ rand = 2000) ∧
    (∀ (attempt : Nat) (opts : RetryOptions) (rand : ℚ),
       opts.jitter = true → 0 ≤ rand → rand < 1 →
       0 ≤ opts.baseDelayMs → 0 ≤ opts.maxDelayMs →
       computeBackoff attempt opts rand =
         ((⌊min opts.maxDelayMs (opts.baseDelayMs * 2 ^ (attempt - 1)) -
             rand * min opts.maxDelayMs (opts.baseDelayMs * 2 ^ (attempt - 1)) * (3 / 10)⌋ :
           ℤ) : ℚ) ∧
       ((⌊(7 / 10) * min opts.maxDelayMs (opts.baseDelayMs * 2 ^ (attempt - 1))⌋ : ℤ) : ℚ) ≤
         computeBackoff attempt opts rand ∧
       computeBackoff attempt opts rand ≤
         min opts.maxDelayMs (opts.baseDelayMs * 2 ^ (attempt - 1)) ∧
       computeBackoff attempt opts rand ≤ opts.maxDelayMs) := by
  refine ⟨?_, ?_, ?_⟩
  · intro attempt opts rand hj
    unfold computeBackoff
    simp [hj]
  · intro rand
    refine ⟨?_, ?_, ?_, ?_, ?_⟩ <;> (unfold computeBackoff; norm_num [min_def])
  · intro attempt opts rand hj hr0 hr1 hb hm
    have he0 : (0 : ℚ) ≤ min opts.maxDelayMs (opts.baseDelayMs * 2 ^ (attempt - 1)) :=
      le_min hm (mul_nonneg hb (pow_nonneg (by norm_num) _))
    set e : ℚ := min opts.maxDelayMs (opts.baseDelayMs * 2 ^ (attempt - 1)) with hedef
    have hrnd0 : (0 : ℚ) ≤ rand * e * (3 / 10) :=
      mul_nonneg (mul_nonneg hr0 he0) (by norm_num)
    have hrnd3 : rand * e * (3 / 10) ≤ (3 / 10) * e := by
      have h1 : rand * e ≤ 1 * e := mul_le_mul_of_nonneg_right (le_of_lt hr1) he0
      calc rand * e * (3 / 10) ≤ 1 * e * (3 / 10) :=
            mul_le_mul_of_nonneg_right h1 (by norm_num)
        _ = (3 / 10) * e := by ring
    have hxe : e - rand * e * (3 / 10) ≤ e := by linarith
    have hx7 : (7 / 10) * e ≤ e - rand * e * (3 / 10) := by linarith
    have hfl_le : ((⌊e - rand * e * (3 / 10)⌋ : ℤ) : ℚ) ≤ e :=
      le_trans (Int.floor_le _) hxe
    have hfl_max : ((⌊e - rand * e * (3 / 10)⌋ : ℤ) : ℚ) ≤ opts.maxDelayMs :=
      le_trans hfl_le (min_le_left _ _)
    have heval : computeBackoff attempt opts rand =
        ((⌊e - rand * e * (3 / 10)⌋ : ℤ) : ℚ) := by
      unfold computeBackoff
      rw [← hedef]
      simp only [hj, Bool.not_true, Bool.false_eq_true, if_false]
      exact min_eq_right hfl_max
    refine ⟨heval, ?_, ?_, ?_⟩
    · rw [heval]
      exact_mod_cast Int.floor_le_floor hx7
    · rw [heval]; exact hfl_le
    · rw [heval]; exact hfl_max

theorem computeBackoff_spec_witness :
    computeBackoff 1 ⟨1, 300, 2000, false⟩ 0 =
      min (2000 : ℚ) (300 * 2 ^ (1 - 1)) ∧
    computeBackoff 3 ⟨1, 300, 2000, false⟩ 0 = 1200 ∧
    computeBackoff 2 ⟨1, 300, 2000, true⟩ (1 / 2) =
      ((⌊min (2000 : ℚ) (300 * 2 ^ (2 - 1)) -
          (1 / 2) * min (2000 : ℚ) (300 * 2 ^ (2 - 1)) * (3 / 10)⌋ : ℤ) : ℚ) ∧
    computeBackoff 2 ⟨1, 300, 2000, true⟩ (1 / 2) ≤ (2000 : ℚ) :=
  ⟨computeBackoff_spec.1 1 ⟨1, 300, 2000, false⟩ 0 rfl,
   (computeBackoff_spec.2.1 0).2.2.1,
   (computeBackoff_spec.2.2 2 ⟨1, 300, 2000, true⟩ (1 / 2) rfl (by norm_num) (by norm_num)
     (by norm_num) (by norm_num)).1,
   (computeBackoff_spec.2.2 2 ⟨1, 300, 2000, true⟩ (1 / 2) rfl (by norm_num) (by norm_num)
     (by norm_num) (by norm_num)).2.2.2⟩

/-! ## Lemmas about object field update -/

theorem jsLookup_append (fs gs : List (String × JsValue)) (k : String) :
    jsLookup (fs ++ gs) k =
      match jsLookup fs k with
      | some v => some v
      | none => jsLookup gs k := by
  induction fs with
  | nil => simp [jsLookup]
  | cons p rest ih =>
      obtain ⟨a, w⟩ := p
      by_cases ha : a = k
      · simp [jsLookup, ha]
      · simp only [List.cons_append, jsLookup, ha, if_false]
        exact ih

theorem jsLookup_replaceAll_mem (fs : List (String × JsValue)) (k : String) (v : JsValue)
    (h : jsLookup fs k ≠ none) :
    jsLookup (fs.map (fun p => if p.1 = k then (k, v) else p)) k = some v := by
  induction fs with
  | nil => simp [jsLookup] at h
  | cons p rest ih =>
      obtain ⟨a, w⟩ := p
      by_cases ha : a = k
      · subst ha
        have hmap : (if ((a, w) : String × JsValue).1 = a then ((a, v) : String × JsValue)
            else (a, w)) = (a, v) := by simp
        rw [List.map_cons, hmap, jsLookup, if_pos rfl]
      · have hmap : (if ((a, w) : String × JsValue).1 = k then ((k, v) : String × JsValue)
            else (a, w)) = (a, w) := by simp [ha]
        rw [List.map_cons, hmap, jsLookup, if_neg ha]
        apply ih
        rw [jsLookup, if_neg ha] at h
        exact h

theorem jsLookup_replaceAll_ne (fs : List (String × JsValue)) (k k' : String) (v : JsValue)
    (h : k' ≠ k) :
    jsLookup (fs.map (fun p => if p.1 = k then (k, v) else p)) k' = jsLookup fs k' := by
  induction fs with
  | nil => simp
  | cons p rest ih =>
      obtain ⟨a, w⟩ := p
      by_cases ha : a = k
      · subst ha
        have hmap : (if ((a, w) : String × JsValue).1 = a then ((a, v) : String × JsValue)
            else (a, w)) = (a, v) := by simp
        rw [List.map_cons, hmap, jsLookup, if_neg (Ne.symm h), jsLookup, if_neg (Ne.symm h)]
        exact ih
      · have hmap : (if ((a, w) : String × JsValue).1 = k then ((k, v) : String × JsValue)
            else (a, w)) = (a, w) := by simp [ha]
        rw [List.map_cons, hmap]
        by_cases hak : a = k'
        · rw [jsLookup, if_pos hak, jsLookup, if_pos hak]
        · rw [jsLookup, if_neg hak, jsLookup, if_neg hak]
          exact ih

theorem jsLookup_none_of_not_hasKey {fs : List (String × JsValue)} {k : String}
    (h : ¬ hasKey fs k = true) : jsLookup fs k = none := by
  cases hv : jsLookup fs k with
  | none => rfl
  | some w => exact absurd (by simp [hasKey, hv]) h

theorem jsLookup_setKey_self (fs : List (String × JsValue)) (k : String) (v : JsValue) :
    jsLookup (setKey fs k v) k = some v := by
  unfold setKey
  by_cases h : hasKey fs k = true
  · rw [if_pos h]
    apply jsLookup_replaceAll_mem
    simp only [hasKey, Option.isSome] at h
    cases hv : jsLookup fs k with
    | none => rw [hv] at h; simp at h
    | some w => simp
  · rw [if_neg h, jsLookup_append, jsLookup_none_of_not_hasKey h]
    simp [jsLookup]

theorem jsLookup_setKey_ne (fs : List (String × JsValue)) (k k' : String) (v : JsValue)
    (h : k' ≠ k) :
    jsLookup (setKey fs k v) k' = jsLookup fs k' := by
  unfold setKey
  by_cases hk : hasKey fs k = true
  · rw [if_pos hk]
    exact jsLookup_replaceAll_ne fs k k' v h
  · rw [if_neg hk, jsLookup_append]
    cases hv : jsLookup fs k' with
    | none => simp [jsLookup, Ne.symm h]
    | some w => simp

theorem normalizeError_eq_built (err : AxiosError)
    (h : isCanonicalFalse (responseData err) = false) :
    normalizeError err =
      .obj [("status", .bool false), ("data", .obj (builtErrorData err))] := by
  simp only [normalizeError, h, Bool.false_eq_true, if_false]
  rfl

theorem errD0_of_obj (err : AxiosError) (fs : List (String × JsValue))
    (hrd : responseData err = .obj fs) :
    errD0 err = setKey fs "message" (chooseMessage err) := by
  unfold errD0
  rw [hrd]
  dsimp only [spreadFields]

theorem errD1_lookup_ne (err : AxiosError) (k : String) (hk : k ≠ "statusCode") :
    jsLookup (errD1 err) k = jsLookup (errD0 err) k := by
  unfold errD1
  cases err.response with
  | none => rfl
  | some rr =>
      dsimp only
      by_cases hs : rr.status = 0
      · rw [if_neg (not_not_intro hs)]
      · rw [if_pos hs]
        exact jsLookup_setKey_ne _ _ _ _ hk

theorem builtErrorData_lookup_ne (err : AxiosError) (k : String) (hk : k ≠ "code") :
    jsLookup (builtErrorData err) k = jsLookup (errD1 err) k := by
  unfold builtErrorData
  cases err.code with
  | none => rfl
  | some c =>
      dsimp only
      by_cases hc : c = ""
      · rw [if_neg (not_not_intro hc)]
      · rw [if_pos hc]
        exact jsLookup_setKey_ne _ _ _ _ hk

theorem errD1_statusCode (err : AxiosError) (r : ErrorResponse)
    (hresp : err.response = some r) (hs : r.status ≠ 0) :
    jsLookup (errD1 err) "statusCode" = some (.num (r.status : Int)) := by
  unfold errD1
  rw [hresp]
  dsimp only
  rw [if_pos hs]
  exact jsLookup_setKey_self _ _ _

theorem builtErrorData_code (err : AxiosError) (c : String)
    (hc : err.code = some c) (hne : c ≠ "") :
    jsLookup (builtErrorData err) "code" = some (.str c) := by
  unfold builtErrorData
  rw [hc]
  dsimp only
  rw [if_pos hne]
  exact jsLookup_setKey_self _ _ _

theorem errD0_message (err : AxiosError) :
    jsLookup (errD0 err) "message" = some (chooseMessage err) := by
  unfold errD0
  cases h : spreadFields (responseData err) with
  | none =>
      dsimp only
      simp [jsLookup]
  | some fs =>
      dsimp only
      exact jsLookup_setKey_self fs "message" (chooseMessage err)

/-- C8: for every error without a canonical `{status:false,data}` response
body — a non-canonical object body, a non-object body, or no response at
all — `normalizeError` yields a Failure whose `message` follows the priority
order body-`message` > body-`error` > transport error message > the literal
"Request failed"; when the body is a structured object, every body field
other than the chosen message and the attachments is merged in unchanged (the
chosen message wins over a same-named body field); `statusCode` is attached
whenever a truthy HTTP status is present, and `code` whenever a truthy
transport failure code is present. -/
theorem normalizeError_builds_error_payload (err : AxiosError)
    (hnc : isCanonicalFalse (responseData err) = false) :
    ∃ d : List (String × JsValue),
      normalizeError err = .obj [("status", .bool false), ("data", .obj d)] ∧
      jsLookup d "message" = some (
        if truthy (getField (responseData err) "message") then
          getField (responseData err) "message"
        else if truthy (getField (responseData err) "error") then
          getField (responseData err) "error"
        else if err.message ≠ "" then .str err.message
        else .str "Request failed") ∧
      (∀ fs : List (String × JsValue), responseData err = .obj fs →
        ∀ (k : String) (v : JsValue), k ≠ "message" → k ≠ "statusCode" → k ≠ "code" →
          jsLookup fs k = some v → jsLookup d k = some v) ∧
      (∀ r : ErrorResponse, err.response = some r → r.status ≠ 0 →
        jsLookup d "statusCode" = some (.num (r.status : Int))) ∧
      (∀ c : String, err.code = some c → c ≠ "" →
        jsLookup d "code" = some (.str c)) := by
  have hmsg : chooseMessage err = (
      if truthy (getField (responseData err) "message") then
        getField (responseData err) "message"
      else if truthy (getField (responseData err) "error") then
        getField (responseData err) "error"
      else if err.message ≠ "" then .str err.message
      else .str "Request failed") := by
    simp only [chooseMessage]
  refine ⟨builtErrorData err, normalizeError_eq_built err hnc, ?_, ?_, ?_, ?_⟩
  · rw [builtErrorData_lookup_ne err "message" (by decide),
        errD1_lookup_ne err "message" (by decide), errD0_message, hmsg]
  · intro fs hrd k v hk1 hk2 hk3 hv
    rw [builtErrorData_lookup_ne err k hk3, errD1_lookup_ne err k hk2,
        errD0_of_obj err fs hrd, jsLookup_setKey_ne _ _ _ _ hk1]
    exact hv
  · intro r hresp hs
    rw [builtErrorData_lookup_ne err "statusCode" (by decide)]
    exact errD1_statusCode err r hresp hs
  · intro c hc hne
    exact builtErrorData_code err c hc hne

theorem normalizeError_builds_error_payload_witness :
    (∃ d : List (String × JsValue),
      normalizeError boomError = .obj [("status", .bool false), ("data", .obj d)] ∧
      jsLookup d "message" = some (
        if truthy (getField (responseData boomError) "message") then
          getField (responseData boomError) "message"
        else if truthy (getField (responseData boomError) "error") then
          getField (responseData boomError) "error"
        else if boomError.message ≠ "" then .str boomError.message
        else .str "Request failed") ∧
      (∀ fs : List (String × JsValue), responseData boomError = .obj fs →
        ∀ (k : String) (v : JsValue), k ≠ "message" → k ≠ "statusCode" → k ≠ "code" →
          jsLookup fs k = some v → jsLookup d k = some v) ∧
      (∀ r : ErrorResponse, boomError.response = some r → r.status ≠ 0 →
        jsLookup d "statusCode" = some (.num (r.status : Int))) ∧
      (∀ c : String, boomError.code = some c → c ≠ "" →
        jsLookup d "code" = some (.str c))) ∧
    (∃ d : List (String × JsValue),
      normalizeError timeoutError = .obj [("status", .bool false), ("data", .obj d)] ∧
      jsLookup d "message" = some (
        if truthy (getField (responseData timeoutError) "message") then
          getField (responseData timeoutError) "message"
        else if truthy (getField (responseData timeoutError) "error") then
          getField (responseData timeoutError) "error"
        else if timeoutError.message ≠ "" then .str timeoutError.message
        else .str "Request failed") ∧
      (∀ fs : List (String × JsValue), responseData timeoutError = .obj fs →
        ∀ (k : String) (v : JsValue), k ≠ "message" → k ≠ "statusCode" → k ≠ "code" →
          jsLookup fs k = some v → jsLookup d k = some v) ∧
      (∀ r : ErrorResponse, timeoutError.response = some r → r.status ≠ 0 →
        jsLookup d "statusCode" = some (.num (r.status : Int))) ∧
      (∀ c : String, timeoutError.code = some c → c ≠ "" →
        jsLookup d "code" = some (.str c))) :=
  ⟨normalizeError_builds_error_payload boomError rfl,
   normalizeError_builds_error_payload timeoutError rfl⟩

theorem validateUrl_invalid (url : JsValue) (h : ∀ s : String, url = .str s → jsTrim s = "") :
    validateUrl url = .error "URL must be a non-empty string" := by
  unfold validateUrl
  cases url with
  | str s =>
      have hs := h s rfl
      by_cases hne : s = ""
      · subst hne
        rfl
      · have ht : truthy (.str s) = true := by simp [truthy, hne]
        rw [ht]
        simp [hs]
  | undefined => rfl
  | null => rfl
  | bool b => cases b <;> rfl
  | num n =>
      by_cases hz : n = 0
      · subst hz; rfl
      · have ht : truthy (.num n) = true := by simp [truthy, hz]
        rw [ht]
        rfl
  | arr xs => rfl
  | obj fs => rfl

theorem validateId_invalid (id : JsValue) (h : id = .null ∨ id = .undefined ∨ id = .str "") :
    validateId id = .error "Resource ID must be provided and non-empty" := by
  rcases h with h | h | h <;> subst h <;> rfl

theorem validateSubpath_invalid (sub : JsValue) (h : ∀ s : String, sub = .str s → jsTrim s = "") :
    validateSubpath sub = .error "Subpath must be a non-empty string" := by
  unfold validateSubpath
  cases sub with
  | str s =>
      have hs := h s rfl
      by_cases hne : s = ""
      · subst hne
        rfl
      · have ht : truthy (.str s) = true := by simp [truthy, hne]
        rw [ht]
        simp [hs]
  | undefined => rfl
  | null => rfl
  | bool b => cases b <;> rfl
  | num n =>
      by_cases hz : n = 0
      · subst hz; rfl
      · have ht : truthy (.num n) = true := by simp [truthy, hz]
        rw [ht]
        rfl
  | arr xs => rfl
  | obj fs => rfl

/-- C9: every method-surface operation given an invalid path (non-string,
empty, or whitespace-only), every id-taking resource operation given a
null/undefined/empty id, and `resource(...).action` given an invalid subpath,
returns the synchronous descriptive error outside the normalized-result
channel.  The error is the same for every exchange function `fn`, so no
exchange attempt is ever performed. -/
theorem invalid_inputs_fail_fast :
    (∀ (url payload : JsValue) (fn : ExchangeFn) (opts : RetryOverrides),
       (∀ s : String, url = .str s → jsTrim s = "") →
       getMany url fn opts = .error "URL must be a non-empty string" ∧
       getOne url fn opts = .error "URL must be a non-empty string" ∧
       post url payload fn opts = .error "URL must be a non-empty string" ∧
       put url payload fn opts = .error "URL must be a non-empty string" ∧
       patch url payload fn opts = .error "URL must be a non-empty string" ∧
       remove url fn opts = .error "URL must be a non-empty string" ∧
       upload url payload fn opts = .error "URL must be a non-empty string" ∧
       download url fn opts = .error "URL must be a non-empty string") ∧
    (∀ (baseUrl : String) (id payload : JsValue) (fn : ExchangeFn) (opts : RetryOverrides),
       (id = .null ∨ id = .undefined ∨ id = .str "") →
       resourceGet baseUrl id fn opts =
         .error "Resource ID must be provided and non-empty" ∧
       resourceUpdate baseUrl id payload fn opts =
         .error "Resource ID must be provided and non-empty" ∧
       resourcePatch baseUrl id payload fn opts =
         .error "Resource ID must be provided and non-empty" ∧
       resourceRemove baseUrl id fn opts =
         .error "Resource ID must be provided and non-empty") ∧
    (∀ (baseUrl : String) (sub : JsValue) (payload : Option JsValue) (fn : ExchangeFn)
       (opts : RetryOverrides),
       (∀ s : String, sub = .str s → jsTrim s = "") →
       resourceAction baseUrl sub payload fn opts =
         .error "Subpath must be a non-empty string") := by
  refine ⟨?_, ?_, ?_⟩
  · intro url payload fn opts h
    have hu := validateUrl_invalid url h
    exact ⟨by unfold getMany; rw [hu], by unfold getOne; rw [hu], by unfold post; rw [hu],
      by unfold put; rw [hu], by unfold patch; rw [hu], by unfold remove; rw [hu],
      by unfold upload; rw [hu], by unfold download; rw [hu]⟩
  · intro baseUrl id payload fn opts h
    have hi := validateId_invalid id h
    exact ⟨by unfold resourceGet; rw [hi], by unfold resourceUpdate; rw [hi],
      by unfold resourcePatch; rw [hi], by unfold resourceRemove; rw [hi]⟩
  · intro baseUrl sub payload fn opts h
    have hs := validateSubpath_invalid sub h
    unfold resourceAction
    rw [hs]

theorem invalid_inputs_fail_fast_witness :
    getOne (.str "") okExchange noOverrides = .error "URL must be a non-empty string" ∧
    resourceGet "/users" .null okExchange noOverrides =
      .error "Resource ID must be provided and non-empty" ∧
    resourceAction "/users" (.str " ") none okExchange noOverrides =
      .error "Subpath must be a non-empty string" :=
  ⟨(invalid_inputs_fail_fast.1 (.str "") .undefined okExchange noOverrides
      (by intro s hs; cases hs; decide)).2.1,
   (invalid_inputs_fail_fast.2.1 "/users" .null .undefined okExchange noOverrides
      (Or.inl rfl)).1,
   invalid_inputs_fail_fast.2.2 "/users" (.str " ") none okExchange noOverrides
      (by intro s hs; cases hs; decide)⟩

end ApiClient
